import Mathlib

/-!
# hpp-pinocchio: `Device` and `Joint` (src/device.cc, src/joint.cc)

A shallow embedding of the kinematic-model wrapper.  The rigid-body engine is
an external library: its tables (`joints`, `names`, `parents`, `frames`,
`lastChild`) are plain lists, and every call the wrapper makes into the engine
is appended to a log kept in the device, so that "which engine routine ran,
and how often" is an observable of the model.

Conventions.
* `assert (e)` is a contract violation when `e` is false.
* `throw std::runtime_error (msg)` is the recoverable error.
* Reading an engine table past its end is reported as `outOfRange`.
* `size_type` is a signed index type and the engine's `njoint`, `idx_q`, `nq`,
  `idx_v`, `nv` are `int`: they are `Int` here; `se3::Index` is unsigned and is
  `Nat`.  No table in reach of these functions is large enough to wrap.
* A scalar is a `double`: a finite number, an infinity or NaN, and `!=` on
  doubles is the IEEE comparison, under which NaN is unequal to itself.  The
  comparison of two vectors is Eigen's: the sizes must agree, and the vectors
  are unequal when some pair of coefficients is.
-/

namespace hpp.pinocchio

/-! ## Failures -/

/-- The three ways a call can end without a result. -/
inductive Failure where
  | contractViolation (assertion : String)
  | runtimeError (what : String)
  | outOfRange
  deriving DecidableEq, Repr

/-- The C `assert`. -/
def assert (cond : Bool) (text : String) : Except Failure Unit :=
  if cond then .ok () else .error (.contractViolation text)

/-- Reading `table[i]` from an engine table. -/
def readAt {α : Type} (table : List α) (i : Nat) : Except Failure α :=
  match table[i]? with
  | some x => .ok x
  | none => .error .outOfRange

/-! ## Engine model and data (external library, consumed as tables) -/

/-- One entry of the engine's joint table, `se3::JointModel`. -/
structure JointModel where
  id : Nat
  idx_q : Int
  nq : Int
  idx_v : Int
  nv : Int
  deriving DecidableEq, Repr

/-- The engine's frame kinds; only `BODY` is tested by the wrapper. -/
inductive FrameType where
  | OP_FRAME | JOINT | FIXED_JOINT | BODY | SENSOR
  deriving DecidableEq, Repr

/-- One entry of the engine's frame table, `se3::Frame`. -/
structure Frame where
  name : String
  parent : Nat
  type : FrameType
  deriving DecidableEq, Repr

/-- A `double`: a finite number, an infinity, or NaN.  The two zeros of IEEE
arithmetic, which compare equal, are one value. -/
inductive value_type where
  | finite (x : Rat)
  | posInf
  | negInf
  | nan
  deriving DecidableEq, Repr

instance (n : Nat) : OfNat value_type n :=
  ⟨.finite n⟩

/-- Whether a double is NaN. -/
def value_type.isNaN : value_type → Bool
  | .nan => true
  | _ => false

/-- The comparison `a != b` of two doubles: NaN compares unequal to every
double, itself included; other doubles are unequal when they differ. -/
def value_type.ne : value_type → value_type → Bool
  | .nan, _ => true
  | _, .nan => true
  | a, b => decide (a ≠ b)

abbrev vector_t := List value_type
abbrev Configuration_t := vector_t

/-- The comparison `a != b` of two Eigen vectors (external library): the
assertion that the sizes agree, then `a.cwiseNotEqual (b).any ()`. -/
def cwiseNotEqualAny (a b : vector_t) : Except Failure Bool :=
  match assert (a.length == b.length)
      "aLhs.rows() == aRhs.rows() && aLhs.cols() == aRhs.cols()" with
  | .error e => .error e
  | .ok _ => .ok ((List.zipWith value_type.ne a b).any id)

/-- The engine model, `se3::Model`, reduced to the members the wrapper reads. -/
structure Model where
  njoint : Int
  nq : Int
  nv : Int
  joints : List JointModel
  names : List String
  parents : List Nat
  frames : List Frame
  neutralConfiguration : vector_t
  deriving DecidableEq, Repr

/-- The engine data, `se3::Data`, reduced to the member the wrapper reads. -/
structure Data where
  lastChild : List Int
  deriving DecidableEq, Repr

/-- Modelled from the spec: the engine service `se3::Model::existJointName`,
an existence check against the engine's joint-name table. -/
def Model.existJointName (m : Model) (name : String) : Bool :=
  m.names.contains name

/-- Modelled from the spec: the engine service `se3::Model::getJointId`, the
index of the name in the engine's joint-name table. -/
def Model.getJointId (m : Model) (name : String) : Nat :=
  m.names.indexOf name

/-- Modelled from the spec: the engine service `se3::Model::existFrame`, whether
the engine has a frame of that name. -/
def Model.existFrame (m : Model) (name : String) : Bool :=
  m.frames.any (fun f => f.name == name)

/-- Modelled from the spec: the engine service `se3::Model::getFrameId`, the
index of the first frame of that name. -/
def Model.getFrameId (m : Model) (name : String) : Nat :=
  m.frames.findIdx (fun f => f.name == name)

/-! ## Device state -/

/-- The calls the wrapper makes into the engine, with their vector arguments. -/
inductive EngineCall where
  | forwardKinematics (q : vector_t) (v : Option vector_t) (a : Option vector_t)
  | jacobianCenterOfMass (q : vector_t)
  | centerOfMass (q : vector_t)
  | computeJacobians (q : vector_t)
  | updateGeometryPlacements
  deriving DecidableEq, Repr

/-- Modelled from the spec: the values of the enumerators of
`Device::Computation_t`, declared in device.hh, which is not among the sources.
They are a parameter of `computeForwardKinematics`. -/
structure Computation_t where
  JOINT_POSITION : Nat
  JACOBIAN : Nat
  VELOCITY : Nat
  ACCELERATION : Nat
  COM : Nat
  deriving DecidableEq, Repr

/-- Modelled from the spec: a bitmask over {POSITION, VELOCITY, ACCELERATION,
COM, JACOBIAN}, one bit for each quantity. -/
def Computation_t.bitmask : Computation_t :=
  { JOINT_POSITION := 1, JACOBIAN := 2, VELOCITY := 4, ACCELERATION := 8, COM := 16 }

/-- Modelled from the spec: `ExtraConfigSpace` (extra-config-space.hh is not
among the sources) is the number of additional appended degrees of freedom. -/
structure ExtraConfigSpace where
  dimension : Int
  deriving DecidableEq, Repr

/-- The members of `Device` that device.cc and joint.cc read or write.
`model_` is allocated by the constructor and is never null; `data_` is null
until `createData`.  `engineCalls` is the log of calls into the engine. -/
structure Device where
  model_ : Model
  data_ : Option Data
  name_ : String
  currentConfiguration_ : Configuration_t
  currentVelocity_ : vector_t
  currentAcceleration_ : vector_t
  upToDate_ : Bool
  geomUpToDate_ : Bool
  computationFlag_ : Nat
  extraConfigSpace_ : ExtraConfigSpace
  engineCalls : List EngineCall
  deriving DecidableEq, Repr

/-- A joint handle: the index in the engine's joint table and the child list
computed at construction.  The device back-reference is passed explicitly. -/
structure Joint where
  id : Nat
  children : List Nat
  deriving DecidableEq, Repr

/-! ## joint.cc -/

/-- The loop of `Joint::setChildList`:
`for (child = id+1; int(child) <= lastChild[id]; ++child)
   if (parents[child] == id) children.push_back (child);`
The first argument is the number of iterations left, `lastChild[id] + 1 - child`
(none when that is not positive). -/
def Joint.setChildList.loop (parents : List Nat) (id : Nat) :
    Nat → Nat → List Nat → Except Failure (List Nat)
  | 0, _, children => .ok children
  | n + 1, child, children =>
    match readAt parents child with
    | .error e => .error e
    | .ok p =>
      Joint.setChildList.loop parents id n (child + 1)
        (if p = id then children ++ [child] else children)

/-- `Joint::setChildList`. -/
def Joint.setChildList (d : Device) (id : Nat) : Except Failure (List Nat) :=
  match d.data_ with
  | none => .error (.contractViolation "data()")
  | some data =>
    match readAt data.lastChild id with
    | .error e => .error e
    | .ok last =>
      Joint.setChildList.loop d.model_.parents id (last + 1 - ((id : Int) + 1)).toNat (id + 1) []

/-- The constructor `Joint::Joint (device, indexInJointList)`. -/
def Joint.new (d : Device) (indexInJointList : Nat) : Except Failure Joint :=
  match assert (decide ((indexInJointList : Int) < d.model_.njoint)) "int(id)<model()->njoint" with
  | .error e => .error e
  | .ok _ =>
    match Joint.setChildList d indexInJointList with
    | .error e => .error e
    | .ok children => .ok { id := indexInJointList, children := children }

/-- `Joint::name`. -/
def Joint.name (d : Device) (j : Joint) : Except Failure String :=
  readAt d.model_.names j.id

/-- `Joint::numberDof`. -/
def Joint.numberDof (d : Device) (j : Joint) : Except Failure Int :=
  (readAt d.model_.joints j.id).map (fun m => m.nv)

/-- `Joint::configSize`. -/
def Joint.configSize (d : Device) (j : Joint) : Except Failure Int :=
  (readAt d.model_.joints j.id).map (fun m => m.nq)

/-- `Joint::rankInConfiguration`. -/
def Joint.rankInConfiguration (d : Device) (j : Joint) : Except Failure Int :=
  (readAt d.model_.joints j.id).map (fun m => m.idx_q)

/-- `Joint::rankInVelocity`. -/
def Joint.rankInVelocity (d : Device) (j : Joint) : Except Failure Int :=
  (readAt d.model_.joints j.id).map (fun m => m.idx_v)

/-- `Joint::numberChildJoints`. -/
def Joint.numberChildJoints (j : Joint) : Nat :=
  j.children.length

/-- `Joint::childJoint`. -/
def Joint.childJoint (d : Device) (j : Joint) (rank : Nat) : Except Failure Joint :=
  match j.children[rank]? with
  | none => .error (.contractViolation "rank<children.size()")
  | some child => Joint.new d child

/-- `JointVector::size`. -/
def JointVector.size (d : Device) : Int :=
  d.model_.njoint

/-- `JointVector::iend`. -/
def JointVector.iend (d : Device) : Int :=
  JointVector.size d - 1

/-- Modelled from the spec: `JointVector::ibegin` (declared in a header that is
not among the sources); the view is 0-based. -/
def JointVector.ibegin (_d : Device) : Int :=
  0

/-- `JointVector::selfAssert`. -/
def JointVector.selfAssert (d : Device) (i : Int) : Except Failure Unit :=
  match assert (decide (i ≥ JointVector.ibegin d)) "i>=ibegin()" with
  | .error e => .error e
  | .ok _ => assert (decide (i < JointVector.iend d)) "i<iend()"

/-- `JointVector::at`. -/
def JointVector.at (d : Device) (i : Int) : Except Failure Joint :=
  match JointVector.selfAssert d i with
  | .error e => .error e
  | .ok _ => Joint.new d (i + 1).toNat

/-! ## device.cc -/

/-- `Device::rootJoint`. -/
def Device.rootJoint (d : Device) : Except Failure Joint :=
  Joint.new d 1

/-- The loop of `Device::getJointAtConfigRank` over the engine's joint table,
ending in the assertion that the joint has been found. -/
def Device.getJointAtConfigRank.loop (d : Device) (r : Int) :
    List JointModel → Except Failure Joint
  | [] => .error (.contractViolation "The joint at config rank has not been found")
  | j :: rest =>
    if j.id = 0 then Device.getJointAtConfigRank.loop d r rest
    else
      let iq : Int := j.idx_q - r
      if 0 ≤ iq ∧ iq < j.nq then Joint.new d j.id
      else Device.getJointAtConfigRank.loop d r rest

/-- `Device::getJointAtConfigRank`. -/
def Device.getJointAtConfigRank (d : Device) (r : Int) : Except Failure Joint :=
  Device.getJointAtConfigRank.loop d r d.model_.joints

/-- The loop of `Device::getJointAtVelocityRank` over the engine's joint table,
ending in the assertion that the joint has been found. -/
def Device.getJointAtVelocityRank.loop (d : Device) (r : Int) :
    List JointModel → Except Failure Joint
  | [] => .error (.contractViolation "The joint at velocity rank has not been found")
  | j :: rest =>
    if j.id = 0 then Device.getJointAtVelocityRank.loop d r rest
    else
      let iv : Int := j.idx_v - r
      if 0 ≤ iv ∧ iv < j.nv then Joint.new d j.id
      else Device.getJointAtVelocityRank.loop d r rest

/-- `Device::getJointAtVelocityRank`. -/
def Device.getJointAtVelocityRank (d : Device) (r : Int) : Except Failure Joint :=
  Device.getJointAtVelocityRank.loop d r d.model_.joints

/-- `Device::getJointByName`. -/
def Device.getJointByName (d : Device) (name : String) : Except Failure Joint :=
  if ¬ d.model_.existJointName name then
    .error (.runtimeError ("Device " ++ d.name_ ++ " does not have any joint named " ++ name))
  else
    let id := d.model_.getJointId name
    Joint.new d id

/-- `Device::getJointByBodyName`. -/
def Device.getJointByBodyName (d : Device) (name : String) : Except Failure Joint :=
  let notFound : Except Failure Joint :=
    .error (.runtimeError ("Device " ++ d.name_ ++ " has no joint with body of name " ++ name))
  if d.model_.existFrame name then
    let bodyId := d.model_.getFrameId name
    match readAt d.model_.frames bodyId with
    | .error e => .error e
    | .ok frame =>
      if frame.type = FrameType.BODY then
        let jointId := frame.parent
        match assert (decide ((jointId : Int) < d.model_.njoint)) "(int)jointId<model_->njoint" with
        | .error e => .error e
        | .ok _ => Joint.new d jointId
      else notFound
  else notFound

/-- `Device::configSize`. -/
def Device.configSize (d : Device) : Int :=
  d.model_.nq + d.extraConfigSpace_.dimension

/-- `Device::numberDof`. -/
def Device.numberDof (d : Device) : Int :=
  d.model_.nv + d.extraConfigSpace_.dimension

/-- Modelled from the spec: `Device::invalidate` (defined in device.hh, which is
not among the sources) flips both cache-freshness flags to stale. -/
def Device.invalidate (d : Device) : Device :=
  { d with upToDate_ := false, geomUpToDate_ := false }

/-- `Device::currentConfiguration (configuration)`, the setter: the device
afterwards and the returned flag. -/
def Device.currentConfiguration (d : Device) (configuration : Configuration_t) :
    Except Failure (Device × Bool) :=
  match cwiseNotEqualAny configuration d.currentConfiguration_ with
  | .error e => .error e
  | .ok differs =>
    if differs then
      let d1 := d.invalidate
      .ok ({ d1 with currentConfiguration_ := configuration }, true)
    else .ok (d, false)

/-- Appending one call to the log of engine calls. -/
def Device.call (d : Device) (c : EngineCall) : Device :=
  { d with engineCalls := d.engineCalls ++ [c] }

/-- The vector expression `v.head (n)`. -/
def head (v : vector_t) (n : Int) : vector_t :=
  v.take n.toNat

/-- The test `computationFlag_ & bit` of device.cc. -/
def Device.requested (d : Device) (bit : Nat) : Bool :=
  d.computationFlag_ &&& bit != 0

/-- `Device::computeForwardKinematics`; `k` gives the values of the
enumerators of `Computation_t`. -/
def Device.computeForwardKinematics (k : Computation_t) (d : Device) :
    Except Failure Device :=
  if d.upToDate_ then .ok d
  else
    match assert d.data_.isSome "data_" with
    | .error e => .error e
    | .ok _ =>
    -- velocity IMPLIES position
    match assert (d.requested k.JOINT_POSITION || !d.requested k.VELOCITY)
        "(computationFlag_&JOINT_POSITION) || (!(computationFlag_&VELOCITY))" with
    | .error e => .error e
    | .ok _ =>
    -- acceleration IMPLIES velocity
    match assert (d.requested k.VELOCITY || !d.requested k.ACCELERATION)
        "(computationFlag_&VELOCITY) || (!(computationFlag_&ACCELERATION))" with
    | .error e => .error e
    | .ok _ =>
    -- com IMPLIES position
    match assert (d.requested k.JOINT_POSITION || !d.requested k.COM)
        "(computationFlag_&JOINT_POSITION) || (!(computationFlag_&COM))" with
    | .error e => .error e
    | .ok _ =>
    -- jacobian IMPLIES position
    match assert (d.requested k.JOINT_POSITION || !d.requested k.JACOBIAN)
        "(computationFlag_&JOINT_POSITION) || (!(computationFlag_&JACOBIAN))" with
    | .error e => .error e
    | .ok _ =>
      let nq := d.model_.nq
      let nv := d.model_.nv
      let d1 :=
        if d.requested k.ACCELERATION then
          d.call (.forwardKinematics (head d.currentConfiguration_ nq)
            (some (head d.currentVelocity_ nv)) (some (head d.currentAcceleration_ nv)))
        else if d.requested k.VELOCITY then
          d.call (.forwardKinematics (head d.currentConfiguration_ nq)
            (some (head d.currentVelocity_ nv)) none)
        else if d.requested k.JOINT_POSITION then
          d.call (.forwardKinematics (head d.currentConfiguration_ nq) none none)
        else d
      let d2 :=
        if d1.requested k.COM then
          if d1.computationFlag_ ||| k.JACOBIAN != 0 then
            d1.call (.jacobianCenterOfMass (head d1.currentConfiguration_ nq))
          else
            d1.call (.centerOfMass (head d1.currentConfiguration_ nq))
        else d1
      let d3 :=
        if d2.requested k.JACOBIAN then
          d2.call (.computeJacobians (head d2.currentConfiguration_ nq))
        else d2
      .ok d3

/-- `Device::updateGeometryPlacements`. -/
def Device.updateGeometryPlacements (d : Device) : Device :=
  if !d.geomUpToDate_ then
    { d.call .updateGeometryPlacements with geomUpToDate_ := true }
  else d

/-! ## Vocabulary of the specification -/

/-- The engine's forward-kinematics update, in any of its three arities. -/
def EngineCall.isKinematicsUpdate : EngineCall → Bool
  | .forwardKinematics _ _ _ => true
  | _ => false

/-- The plain centre-of-mass call. -/
def EngineCall.isPlainCom : EngineCall → Bool
  | .centerOfMass _ => true
  | _ => false

/-- The centre-of-mass call fused with its Jacobian. -/
def EngineCall.isJacobianCom : EngineCall → Bool
  | .jacobianCenterOfMass _ => true
  | _ => false

/-- How many times the engine's kinematics update has run on this device. -/
def Device.kinematicsUpdates (d : Device) : Nat :=
  d.engineCalls.countP EngineCall.isKinematicsUpdate

/-- Well-formed configuration layout: every rank of `[0, nq)` lies in the range
`[idx_q, idx_q + nq)` of exactly one joint other than the universe, and these
ranges stay inside `[0, nq)`. -/
def Spec.configRangesPartition (m : Model) : Bool :=
  (List.range m.nq.toNat).all (fun q =>
    (m.joints.filter (fun j =>
      j.id != 0 && decide (j.idx_q ≤ (q : Int)) && decide ((q : Int) < j.idx_q + j.nq))).length == 1)
  && m.joints.all (fun j =>
      j.id == 0 || (decide (0 ≤ j.idx_q) && decide (j.idx_q + j.nq ≤ m.nq)))

/-- The first joint other than the universe whose velocity range
`[idx_v, idx_v + nv)` contains the rank `r`, as the specification words it. -/
def Spec.jointAtVelocityRank (m : Model) (r : Int) : Option JointModel :=
  m.joints.find? (fun j => j.id != 0 && decide (j.idx_v ≤ r) && decide (r < j.idx_v + j.nv))

/-- Whether joint `c` lies in the subtree rooted at `root`: following the
engine-recorded parents from `c` reaches `root`.  The first argument bounds the
number of steps; `c` steps are enough when every parent is smaller than its
child. -/
def Spec.inSubtree (parents : List Nat) (root : Nat) : Nat → Nat → Bool
  | 0, c => c == root
  | fuel + 1, c => c == root || (c != 0 && Spec.inSubtree parents root fuel (parents.getD c 0))

/-- The increasing list of the indices `c` with `id < c <= lastChild[id]` and
`parents[c] == id`, as the specification words it. -/
def Spec.childList (parents : List Nat) (lastChild : List Int) (id : Nat) : List Nat :=
  (List.range' (id + 1) (lastChild.getD id 0 - (id : Int)).toNat).filter
    (fun c => parents[c]? == some id)

/-- The engine buffers of a constructed device: the data buffer is allocated,
the name, parent and last-descendant tables have `njoint` entries, and every
last descendant is a joint of the table. -/
structure Device.EngineCoherent (d : Device) (data : Data) : Prop where
  data_eq : d.data_ = some data
  names_length : (d.model_.names.length : Int) = d.model_.njoint
  parents_length : (d.model_.parents.length : Int) = d.model_.njoint
  lastChild_length : (data.lastChild.length : Int) = d.model_.njoint
  lastChild_lt : ∀ last ∈ data.lastChild, last < d.model_.njoint

/-- A well-formed engine tree: coherent buffers, `parents[c] < c` for every
`c >= 1`, and `lastChild[j]` is the largest index in the subtree of `j`. -/
structure Device.TreeWellFormed (d : Device) (data : Data) : Prop where
  coherent : d.EngineCoherent data
  parent_lt : ∀ c, c < d.model_.parents.length → 0 < c → d.model_.parents.getD c 0 < c
  lastChild_mem : ∀ j, j < data.lastChild.length →
    0 ≤ data.lastChild.getD j 0 ∧
    Spec.inSubtree d.model_.parents j (data.lastChild.getD j 0).toNat
      (data.lastChild.getD j 0).toNat = true
  lastChild_largest : ∀ j, j < data.lastChild.length →
    ∀ c, c < d.model_.parents.length → Spec.inSubtree d.model_.parents j c c = true →
      (c : Int) ≤ data.lastChild.getD j 0

/-! ## Concrete devices -/

/-- The engine data of `arm`. -/
def armData : Data :=
  { lastChild := [2, 2, 2] }

/-- A two-joint serial arm: the universe, then `shoulder` (configuration and
velocity ranks 0 and 1), then `elbow` (ranks 2 and 3), child of `shoulder`.
Its caches are stale and only the joint positions are requested. -/
def arm : Device :=
  { model_ :=
      { njoint := 3, nq := 4, nv := 4,
        joints := [⟨0, 0, 0, 0, 0⟩, ⟨1, 0, 2, 0, 2⟩, ⟨2, 2, 2, 2, 2⟩],
        names := ["universe", "shoulder", "elbow"],
        parents := [0, 0, 1],
        frames := [⟨"base", 0, .BODY⟩, ⟨"upper", 1, .BODY⟩, ⟨"tool", 2, .OP_FRAME⟩],
        neutralConfiguration := [0, 0, 0, 0] },
    data_ := some armData,
    name_ := "arm",
    currentConfiguration_ := [0, 0, 0, 0],
    currentVelocity_ := [0, 0, 0, 0],
    currentAcceleration_ := [0, 0, 0, 0],
    upToDate_ := false,
    geomUpToDate_ := false,
    computationFlag_ := Computation_t.bitmask.JOINT_POSITION,
    extraConfigSpace_ := ⟨0⟩,
    engineCalls := [] }

/-- The arm with both caches fresh. -/
def armFresh : Device :=
  { arm with upToDate_ := true, geomUpToDate_ := true }

/-- The arm with both caches fresh, holding a configuration whose last
coefficient is NaN. -/
def armNaN : Device :=
  { armFresh with currentConfiguration_ := [0, 0, 0, .nan] }

/-- The arm before `createData`: the engine model is built, the data buffer is
not allocated. -/
def armNoData : Device :=
  { arm with data_ := none }

/-- The engine data of `tree`. -/
def treeData : Data :=
  { lastChild := [4, 4, 3, 3, 4] }

/-- A branching tree: `hip` (index 1) has the children `knee` (2) and `tail`
(4), and `knee` has the child `ankle` (3). -/
def tree : Device :=
  { model_ :=
      { njoint := 5, nq := 4, nv := 4,
        joints := [⟨0, 0, 0, 0, 0⟩, ⟨1, 0, 1, 0, 1⟩, ⟨2, 1, 1, 1, 1⟩, ⟨3, 2, 1, 2, 1⟩,
          ⟨4, 3, 1, 3, 1⟩],
        names := ["universe", "hip", "knee", "ankle", "tail"],
        parents := [0, 0, 1, 2, 1],
        frames := [],
        neutralConfiguration := [0, 0, 0, 0] },
    data_ := some treeData,
    name_ := "tree",
    currentConfiguration_ := [0, 0, 0, 0],
    currentVelocity_ := [0, 0, 0, 0],
    currentAcceleration_ := [0, 0, 0, 0],
    upToDate_ := false,
    geomUpToDate_ := false,
    computationFlag_ := Computation_t.bitmask.JOINT_POSITION,
    extraConfigSpace_ := ⟨0⟩,
    engineCalls := [] }

/-- The arm with the joint positions and the centre of mass requested, and no
Jacobian. -/
def armCom : Device :=
  { arm with
    computationFlag_ := Computation_t.bitmask.JOINT_POSITION ||| Computation_t.bitmask.COM }

/-! ## Basic facts about the embedding -/

theorem readAt_of_lt {α : Type} (table : List α) (i : Nat) (h : i < table.length) :
    readAt table i = .ok table[i] := by
  unfold readAt
  rw [List.getElem?_eq_getElem h]

theorem readAt_eq_ok {α : Type} (table : List α) (i : Nat) (x : α) :
    readAt table i = .ok x ↔ table[i]? = some x := by
  unfold readAt
  cases h : table[i]? <;> simp

theorem or_eq_zero_right {n m : Nat} (h : n ||| m = 0) : m = 0 := by
  apply Nat.eq_of_testBit_eq
  intro i
  have hbit := Nat.testBit_or n m i
  rw [h] at hbit
  simp only [Nat.zero_testBit] at hbit
  cases hm : m.testBit i
  · simp
  · rw [hm] at hbit; simp at hbit

@[simp]
theorem Device.call_computationFlag (d : Device) (c : EngineCall) :
    (d.call c).computationFlag_ = d.computationFlag_ := rfl

@[simp]
theorem Device.call_requested (d : Device) (c : EngineCall) (bit : Nat) :
    (d.call c).requested bit = d.requested bit := rfl

@[simp]
theorem Device.call_upToDate (d : Device) (c : EngineCall) :
    (d.call c).upToDate_ = d.upToDate_ := rfl

@[simp]
theorem Device.call_engineCalls (d : Device) (c : EngineCall) :
    (d.call c).engineCalls = d.engineCalls ++ [c] := rfl

/-! ## The child list -/

/-- With the parent table long enough, the loop of `setChildList` appends the
indices of the scanned range whose parent is `id`, in increasing order. -/
theorem setChildList_loop_eq (parents : List Nat) (id : Nat) :
    ∀ (n child : Nat) (acc : List Nat), child + n ≤ parents.length →
      Joint.setChildList.loop parents id n child acc =
        .ok (acc ++ (List.range' child n).filter (fun c => parents[c]? == some id)) := by
  intro n
  induction n with
  | zero => intro child acc _; simp [Joint.setChildList.loop]
  | succ n ih =>
    intro child acc hlen
    have hlt : child < parents.length := by omega
    unfold Joint.setChildList.loop
    rw [readAt_of_lt parents child hlt]
    simp only
    rw [ih (child + 1) _ (by omega)]
    have hget : parents[child]? = some parents[child] := List.getElem?_eq_getElem hlt
    by_cases hp : parents[child] = id
    · simp [List.range'_succ, List.filter_cons, hget, hp]
    · simp [List.range'_succ, List.filter_cons, hget, hp]

/-- The loop of `setChildList` can only fail by reading past the parent table. -/
theorem setChildList_loop_error (parents : List Nat) (id : Nat) :
    ∀ (n child : Nat) (acc : List Nat) (e : Failure),
      Joint.setChildList.loop parents id n child acc = .error e → e = .outOfRange := by
  intro n
  induction n with
  | zero => intro child acc e h; simp [Joint.setChildList.loop] at h
  | succ n ih =>
    intro child acc e h
    unfold Joint.setChildList.loop at h
    unfold readAt at h
    cases hp : parents[child]? with
    | none => rw [hp] at h; simp at h; exact h.symm
    | some p => rw [hp] at h; exact ih _ _ _ h

/-- Every index the loop of `setChildList` adds is at least the index it
started from. -/
theorem setChildList_loop_ge (parents : List Nat) (id : Nat) :
    ∀ (n child : Nat) (acc out : List Nat),
      Joint.setChildList.loop parents id n child acc = .ok out →
        ∀ c ∈ out, c ∈ acc ∨ child ≤ c := by
  intro n
  induction n with
  | zero =>
    intro child acc out h c hc
    simp only [Joint.setChildList.loop, Except.ok.injEq] at h
    subst h
    exact Or.inl hc
  | succ n ih =>
    intro child acc out h c hc
    unfold Joint.setChildList.loop at h
    split at h
    · simp at h
    · rename_i p _
      rcases ih _ _ _ h c hc with hmem | hge
      · by_cases hp : p = id
        · simp only [hp, if_true, List.mem_append, List.mem_singleton] at hmem
          rcases hmem with hmem | hmem
          · exact Or.inl hmem
          · exact Or.inr (by omega)
        · simp only [hp, if_false] at hmem
          exact Or.inl hmem
      · exact Or.inr (by omega)

/-- The constructor never raises the recoverable error. -/
theorem Joint.new_error_not_runtime (d : Device) (i : Nat) (msg : String) :
    Joint.new d i ≠ .error (.runtimeError msg) := by
  intro h
  unfold Joint.new assert at h
  split at h
  · rename_i e he
    split at he <;> simp at he
    subst he; simp at h
  · split at h
    · rename_i e he
      simp only [Except.error.injEq] at h
      subst h
      unfold Joint.setChildList at he
      split at he
      · simp at he
      · split at he
        · rename_i e2 he2
          unfold readAt at he2
          split at he2 <;> simp at he2
          subst he2; simp at he
        · have := setChildList_loop_error _ _ _ _ _ _ he
          simp at this
    · simp at h

/-- A constructed handle carries the index it was built from, and its children
have larger indices. -/
theorem Joint.new_id (d : Device) (i : Nat) (j : Joint) (h : Joint.new d i = .ok j) :
    j.id = i ∧ ∀ c ∈ j.children, i < c := by
  unfold Joint.new at h
  split at h
  · simp at h
  · split at h
    · simp at h
    · rename_i children hch
      simp only [Except.ok.injEq] at h
      subst h
      refine ⟨rfl, ?_⟩
      intro c hc
      unfold Joint.setChildList at hch
      split at hch
      · simp at hch
      · split at hch
        · simp at hch
        · rcases setChildList_loop_ge _ _ _ _ _ _ hch c hc with hmem | hge
          · simp at hmem
          · omega

/-- On coherent engine buffers the constructor succeeds at every index of the
joint table. -/
theorem Joint.new_ok (d : Device) (data : Data) (hco : d.EngineCoherent data) (i : Nat)
    (hi : (i : Int) < d.model_.njoint) :
    Joint.new d i = .ok ⟨i, Spec.childList d.model_.parents data.lastChild i⟩ := by
  have hlen := hco.lastChild_length
  have hplen := hco.parents_length
  have hilt : i < data.lastChild.length := by omega
  have hmem : data.lastChild[i] ∈ data.lastChild := List.getElem_mem hilt
  have hlast := hco.lastChild_lt _ hmem
  have hgetD : data.lastChild.getD i 0 = data.lastChild[i] := by
    simp [List.getD_eq_getElem?_getD, List.getElem?_eq_getElem hilt]
  unfold Joint.new assert
  simp only [hi, decide_True, if_true]
  unfold Joint.setChildList
  simp only [hco.data_eq, readAt_of_lt _ _ hilt]
  rw [setChildList_loop_eq _ _ _ _ _ (by omega)]
  simp only [Spec.childList, List.nil_append]
  rw [hgetD]
  have hcount : (data.lastChild[i] + 1 - ((i : Int) + 1)).toNat
      = (data.lastChild[i] - (i : Int)).toNat := by omega
  rw [hcount]

theorem Spec.inSubtree_root (parents : List Nat) (root fuel : Nat) :
    Spec.inSubtree parents root fuel root = true := by
  cases fuel <;> simp [Spec.inSubtree]

theorem Spec.inSubtree_of_parent (parents : List Nat) (root c : Nat) (hc : 0 < c)
    (hp : parents[c]? = some root) : Spec.inSubtree parents root c c = true := by
  obtain ⟨k, rfl⟩ : ∃ k, c = k + 1 := ⟨c - 1, by omega⟩
  have hget : parents.getD (k + 1) 0 = root := by
    simp [List.getD_eq_getElem?_getD, hp]
  unfold Spec.inSubtree
  rw [hget, Spec.inSubtree_root]
  simp

theorem Spec.mem_childList (parents : List Nat) (lastChild : List Int) (id c : Nat) :
    c ∈ Spec.childList parents lastChild id ↔
      id < c ∧ (c : Int) ≤ lastChild.getD id 0 ∧ parents[c]? = some id := by
  unfold Spec.childList
  simp only [List.mem_filter, List.mem_range'_1, beq_iff_eq]
  constructor
  · rintro ⟨⟨h1, h2⟩, h3⟩
    exact ⟨by omega, by omega, h3⟩
  · rintro ⟨h1, h2, h3⟩
    exact ⟨⟨by omega, by omega⟩, h3⟩

theorem Spec.childList_sorted (parents : List Nat) (lastChild : List Int) (id : Nat) :
    (Spec.childList parents lastChild id).Sorted (· < ·) := by
  unfold Spec.childList
  exact List.Pairwise.filter _ (List.pairwise_lt_range' _ _)

/-- The arm is a well-formed engine tree. -/
theorem arm_treeWellFormed : arm.TreeWellFormed armData where
  coherent :=
    { data_eq := rfl
      names_length := by decide
      parents_length := by decide
      lastChild_length := by decide
      lastChild_lt := by decide }
  parent_lt := by decide
  lastChild_mem := by decide
  lastChild_largest := by decide

/-- The branching tree is a well-formed engine tree. -/
theorem tree_treeWellFormed : tree.TreeWellFormed treeData where
  coherent :=
    { data_eq := rfl
      names_length := by decide
      parents_length := by decide
      lastChild_length := by decide
      lastChild_lt := by decide }
  parent_lt := by decide
  lastChild_mem := by decide
  lastChild_largest := by decide

/-! ## Setting the configuration -/

/-- NaN is unequal to itself. -/
theorem value_type.ne_nan_self : value_type.nan.ne value_type.nan = true := rfl

/-- Apart from NaN, `!=` on doubles is being different. -/
theorem value_type.ne_iff_of_not_nan (a b : value_type) (ha : a.isNaN = false) :
    a.ne b = true ↔ a ≠ b := by
  cases a <;> cases b <;> simp [value_type.ne, value_type.isNaN] at *

/-- The vectors are unequal when some pair of coefficients is. -/
theorem any_zipWith_ne_iff (a b : vector_t) :
    (List.zipWith value_type.ne a b).any id = true ↔
      ∃ p ∈ a.zip b, p.1.ne p.2 = true := by
  induction a generalizing b with
  | nil => simp
  | cons x a ih =>
    cases b with
    | nil => simp
    | cons y b =>
      simp only [List.zipWith_cons_cons, List.any_cons, id, Bool.or_eq_true, ih,
        List.zip_cons_cons, List.mem_cons, exists_eq_or_imp]

/-- For vectors of one size, the first without NaN, Eigen's `!=` is being
different. -/
theorem any_zipWith_ne_iff_ne (a b : vector_t) (hlen : a.length = b.length)
    (hnan : ∀ x ∈ a, x.isNaN = false) :
    (List.zipWith value_type.ne a b).any id = true ↔ a ≠ b := by
  induction a generalizing b with
  | nil =>
    cases b with
    | nil => simp
    | cons y b => simp at hlen
  | cons x a ih =>
    cases b with
    | nil => simp at hlen
    | cons y b =>
      have hrest := ih b (by simpa using hlen) (fun z hz => hnan z (List.mem_cons_of_mem _ hz))
      have hx := value_type.ne_iff_of_not_nan x y (hnan x (List.mem_cons_self _ _))
      simp only [List.zipWith_cons_cons, List.any_cons, id, Bool.or_eq_true, hrest, hx, ne_eq,
        List.cons.injEq, not_and_or]

/-- Claim C1, as amended: for a configuration vector `c` of the size of the
stored configuration, the setter `currentConfiguration (c)` returns, and it
returns true iff some coefficient of `c` compares unequal to the stored one,
which for `c` without NaN is: iff `c` differs from the stored configuration.
When it returns true, afterwards both freshness flags are false and the stored
configuration is `c`; when it returns false, as it does for an identical `c`
without NaN, the device, its stored configuration and both flags included, is
unchanged. -/
theorem currentConfiguration_contract (d : Device) (c : Configuration_t)
    (hsize : c.length = d.currentConfiguration_.length) :
    ∃ out b, d.currentConfiguration c = .ok (out, b) ∧
      (b = true ↔ ∃ p ∈ c.zip d.currentConfiguration_, p.1.ne p.2 = true) ∧
      ((∀ x ∈ c, x.isNaN = false) → (b = true ↔ c ≠ d.currentConfiguration_)) ∧
      ((∀ x ∈ c, x.isNaN = false) → c = d.currentConfiguration_ → b = false ∧ out = d) ∧
      (b = true →
        out.upToDate_ = false ∧ out.geomUpToDate_ = false ∧ out.currentConfiguration_ = c) ∧
      (b = false → out = d) := by
  have hcmp : cwiseNotEqualAny c d.currentConfiguration_ =
      .ok ((List.zipWith value_type.ne c d.currentConfiguration_).any id) := by
    unfold cwiseNotEqualAny assert
    simp [hsize]
  unfold Device.currentConfiguration
  rw [hcmp]
  simp only
  cases hb : (List.zipWith value_type.ne c d.currentConfiguration_).any id with
  | false =>
    refine ⟨d, false, by simp, ?_, ?_, ?_, by simp, fun _ => rfl⟩
    · rw [← any_zipWith_ne_iff, hb]
    · intro hnan
      rw [← any_zipWith_ne_iff_ne c _ hsize hnan, hb]
    · intro _ _
      exact ⟨rfl, rfl⟩
  | true =>
    refine ⟨{ d.invalidate with currentConfiguration_ := c }, true, by simp, ?_, ?_, ?_,
      fun _ => ⟨rfl, rfl, rfl⟩, by simp⟩
    · rw [← any_zipWith_ne_iff, hb]
    · intro hnan
      rw [← any_zipWith_ne_iff_ne c _ hsize hnan, hb]
    · intro hnan heq
      have := (any_zipWith_ne_iff_ne c _ hsize hnan).mp hb
      exact absurd heq this

/-- Claim C1 at work on the arm with fresh caches: a new configuration makes
both caches stale and is stored, the same configuration changes nothing. -/
theorem currentConfiguration_contract_witness :
    ([0, 0, 0, 1] : Configuration_t).length = armFresh.currentConfiguration_.length ∧
    (∀ x ∈ ([0, 0, 0, 1] : Configuration_t), x.isNaN = false) ∧
    armFresh.upToDate_ = true ∧ armFresh.geomUpToDate_ = true ∧
    armFresh.currentConfiguration [0, 0, 0, 1] =
      .ok ({ armFresh with
              upToDate_ := false, geomUpToDate_ := false,
              currentConfiguration_ := [0, 0, 0, 1] }, true) ∧
    armFresh.currentConfiguration [0, 0, 0, 0] = .ok (armFresh, false) ∧
    ∃ out b, armFresh.currentConfiguration [0, 0, 0, 1] = .ok (out, b) ∧
      (b = true ↔ ∃ p ∈ ([0, 0, 0, 1] : Configuration_t).zip armFresh.currentConfiguration_,
        p.1.ne p.2 = true) ∧
      ((∀ x ∈ ([0, 0, 0, 1] : Configuration_t), x.isNaN = false) →
        (b = true ↔ [0, 0, 0, 1] ≠ armFresh.currentConfiguration_)) ∧
      ((∀ x ∈ ([0, 0, 0, 1] : Configuration_t), x.isNaN = false) →
        [0, 0, 0, 1] = armFresh.currentConfiguration_ → b = false ∧ out = armFresh) ∧
      (b = true →
        out.upToDate_ = false ∧ out.geomUpToDate_ = false ∧
          out.currentConfiguration_ = [0, 0, 0, 1]) ∧
      (b = false → out = armFresh) :=
  ⟨rfl, by decide, rfl, rfl, rfl, rfl, currentConfiguration_contract armFresh [0, 0, 0, 1] rfl⟩

/-- Claim C1 as stated fails on two inputs.  On the arm with fresh caches whose
stored configuration holds NaN, setting the identical vector returns true and
makes both caches stale.  On the arm, whose stored configuration has four
coefficients, a vector of one coefficient trips the size assertion of the
vector comparison, and nothing is returned or stored. -/
theorem currentConfiguration_identical_nan :
    armNaN.upToDate_ = true ∧ armNaN.geomUpToDate_ = true ∧
    armNaN.currentConfiguration armNaN.currentConfiguration_ =
      .ok ({ armNaN with upToDate_ := false, geomUpToDate_ := false }, true) ∧
    armFresh.currentConfiguration [0] =
      .error (.contractViolation "aLhs.rows() == aRhs.rows() && aLhs.cols() == aRhs.cols()") :=
  ⟨rfl, rfl, rfl, rfl⟩

/-! ## Forward kinematics -/

/-- The body of `computeForwardKinematics` never writes the kinematics flag:
the device comes out as stale or as fresh as it went in. -/
theorem computeForwardKinematics_upToDate (k : Computation_t) (d out : Device)
    (h : d.computeForwardKinematics k = .ok out) : out.upToDate_ = d.upToDate_ := by
  unfold Device.computeForwardKinematics at h
  split at h
  · cases h; rfl
  · repeat (split at h; · cases h)
    simp only [Except.ok.injEq] at h
    subst h
    repeat' split
    all_goals rfl

/-- Claim C2, evaluated on the stale arm with the joint positions requested:
the first call runs the kinematics update and leaves the cache stale, so the
second call runs the update again; across the two calls it runs twice. -/
theorem computeForwardKinematics_twice_updates_twice :
    arm.upToDate_ = false ∧
    ∃ d1 d2, arm.computeForwardKinematics .bitmask = .ok d1 ∧ d1.upToDate_ = false ∧
      d1.kinematicsUpdates = 1 ∧
      d1.computeForwardKinematics .bitmask = .ok d2 ∧ d2.upToDate_ = false ∧
      d2.kinematicsUpdates = 2 :=
  ⟨rfl, _, _, rfl, rfl, rfl, rfl, rfl, rfl⟩

/-- Whatever the values of the enumerators, as long as `JACOBIAN` is not zero,
`computeForwardKinematics` never calls the plain centre-of-mass routine: the
test `computationFlag_|JACOBIAN` always holds. -/
theorem computeForwardKinematics_plainCom (k : Computation_t) (d out : Device)
    (hJ : k.JACOBIAN ≠ 0) (h : d.computeForwardKinematics k = .ok out) :
    out.engineCalls.countP EngineCall.isPlainCom
      = d.engineCalls.countP EngineCall.isPlainCom := by
  have hor : ∀ n : Nat, (n ||| k.JACOBIAN != 0) = true := by
    intro n
    simp only [bne_iff_ne, ne_eq]
    intro h0
    exact hJ (or_eq_zero_right h0)
  unfold Device.computeForwardKinematics at h
  split at h
  · cases h; rfl
  · repeat (split at h; · cases h)
    simp only [Except.ok.injEq] at h
    subst h
    simp only [hor, if_true]
    repeat' split
    all_goals simp [EngineCall.isPlainCom, List.countP_append]

/-- Claim C5, evaluated on the stale arm with COM requested and JACOBIAN not
requested: the one centre-of-mass call made is `jacobianCenterOfMass`, and the
plain `centerOfMass` is not called. -/
theorem computeForwardKinematics_com_without_jacobian :
    armCom.upToDate_ = false ∧
    armCom.requested Computation_t.bitmask.COM = true ∧
    armCom.requested Computation_t.bitmask.JACOBIAN = false ∧
    ∃ d, armCom.computeForwardKinematics .bitmask = .ok d ∧
      d.engineCalls = [.forwardKinematics [0, 0, 0, 0] none none,
                       .jacobianCenterOfMass [0, 0, 0, 0]] ∧
      d.engineCalls.countP EngineCall.isJacobianCom = 1 ∧
      d.engineCalls.countP EngineCall.isPlainCom = 0 :=
  ⟨rfl, by decide, by decide, _, rfl, rfl, rfl, rfl⟩

/-! ## Lookup by rank -/

/-- What `getJointAtConfigRank` returns: a joint other than the universe with
`r <= idx_q < r + nq`, the range test taken from the side of `idx_q`. -/
theorem getJointAtConfigRank_returns (d : Device) (r : Int) (j : Joint)
    (h : d.getJointAtConfigRank r = .ok j) :
    ∃ jm ∈ d.model_.joints, jm.id = j.id ∧ jm.id ≠ 0 ∧ r ≤ jm.idx_q ∧ jm.idx_q < r + jm.nq := by
  unfold Device.getJointAtConfigRank at h
  generalize d.model_.joints = joints at h
  induction joints with
  | nil => simp [Device.getJointAtConfigRank.loop] at h
  | cons jm rest ih =>
    unfold Device.getJointAtConfigRank.loop at h
    split at h
    · obtain ⟨x, hx, hrest⟩ := ih h
      exact ⟨x, List.mem_cons_of_mem _ hx, hrest⟩
    · rename_i hid
      simp only at h
      split at h
      · rename_i hrange
        exact ⟨jm, List.mem_cons_self _ _, ((Joint.new_id d _ _ h).1).symm, hid,
          by omega, by omega⟩
      · obtain ⟨x, hx, hrest⟩ := ih h
        exact ⟨x, List.mem_cons_of_mem _ hx, hrest⟩

/-- What `getJointAtVelocityRank` returns: a joint other than the universe with
`r <= idx_v < r + nv`, the range test taken from the side of `idx_v`. -/
theorem getJointAtVelocityRank_returns (d : Device) (r : Int) (j : Joint)
    (h : d.getJointAtVelocityRank r = .ok j) :
    ∃ jm ∈ d.model_.joints, jm.id = j.id ∧ jm.id ≠ 0 ∧ r ≤ jm.idx_v ∧ jm.idx_v < r + jm.nv := by
  unfold Device.getJointAtVelocityRank at h
  generalize d.model_.joints = joints at h
  induction joints with
  | nil => simp [Device.getJointAtVelocityRank.loop] at h
  | cons jm rest ih =>
    unfold Device.getJointAtVelocityRank.loop at h
    split at h
    · obtain ⟨x, hx, hrest⟩ := ih h
      exact ⟨x, List.mem_cons_of_mem _ hx, hrest⟩
    · rename_i hid
      simp only at h
      split at h
      · rename_i hrange
        exact ⟨jm, List.mem_cons_self _ _, ((Joint.new_id d _ _ h).1).symm, hid,
          by omega, by omega⟩
      · obtain ⟨x, hx, hrest⟩ := ih h
        exact ⟨x, List.mem_cons_of_mem _ hx, hrest⟩

/-- Claim C3, evaluated on the arm, whose configuration ranges `[0, 2)` and
`[2, 4)` partition `[0, 4)` and whose extra-config space is empty: at rank 1 the
lookup returns `elbow`, whose range starts at 2, and at rank 3 it ends in the
'not found' assertion. -/
theorem getJointAtConfigRank_misses_range :
    Spec.configRangesPartition arm.model_ = true ∧ arm.extraConfigSpace_.dimension = 0 ∧
    (0 : Int) ≤ 1 ∧ (1 : Int) < arm.configSize ∧ (3 : Int) < arm.configSize ∧
    arm.getJointAtConfigRank 1 = .ok ⟨2, []⟩ ∧
    Joint.rankInConfiguration arm ⟨2, []⟩ = .ok 2 ∧
    arm.getJointAtConfigRank 3 =
      .error (.contractViolation "The joint at config rank has not been found") :=
  ⟨by decide, rfl, by decide, by decide, by decide, rfl, rfl, rfl⟩

/-- Claim C4, evaluated on the arm: the first joint whose velocity range
contains rank 1 is `shoulder`, and the lookup returns `elbow`; the range of
`elbow` contains rank 3, and the lookup ends in the 'not found' assertion. -/
theorem getJointAtVelocityRank_misses_range :
    Spec.jointAtVelocityRank arm.model_ 1 = some ⟨1, 0, 2, 0, 2⟩ ∧
    arm.getJointAtVelocityRank 1 = .ok ⟨2, []⟩ ∧
    Spec.jointAtVelocityRank arm.model_ 3 = some ⟨2, 2, 2, 2, 2⟩ ∧
    arm.getJointAtVelocityRank 3 =
      .error (.contractViolation "The joint at velocity rank has not been found") :=
  ⟨by decide, rfl, by decide, rfl⟩

/-! ## Lookup by name -/

theorem existJointName_iff (m : Model) (s : String) :
    m.existJointName s = true ↔ s ∈ m.names := by
  unfold Model.existJointName
  simp

/-- Claim C6, as amended: `getJointByName (s)` raises the recoverable error iff
`s` is absent from the engine's joint-name table, and the message then contains
the device's name and `s`; when `s` is in the table the call is the `Joint`
constructor at the index of `s` in the table, so a handle it returns has that
index, and the name of that joint is `s`; and it does return that handle on a
device whose engine data has been created and whose engine tables are
coherent. -/
theorem getJointByName_contract (d : Device) (s : String) :
    ((∃ msg, d.getJointByName s = .error (.runtimeError msg)) ↔ s ∉ d.model_.names) ∧
    (∀ msg, d.getJointByName s = .error (.runtimeError msg) →
      (∃ a b, msg = a ++ d.name_ ++ b) ∧ (∃ a b, msg = a ++ s ++ b)) ∧
    (s ∈ d.model_.names →
      d.getJointByName s = Joint.new d (d.model_.names.indexOf s)) ∧
    (∀ j, d.getJointByName s = .ok j →
      j.id = d.model_.names.indexOf s ∧ d.model_.names[j.id]? = some s ∧
        Joint.name d j = .ok s) ∧
    (∀ data, d.EngineCoherent data → s ∈ d.model_.names →
      ∃ j, d.getJointByName s = .ok j ∧ j.id = d.model_.names.indexOf s ∧
        j.children = Spec.childList d.model_.parents data.lastChild j.id ∧
        Joint.name d j = .ok s) := by
  by_cases hs : s ∈ d.model_.names
  · have hex : d.model_.existJointName s = true := (existJointName_iff _ _).mpr hs
    have hcall : d.getJointByName s = Joint.new d (d.model_.names.indexOf s) := by
      unfold Device.getJointByName
      simp [hex, Model.getJointId]
    have hidx : d.model_.names.indexOf s < d.model_.names.length :=
      List.indexOf_lt_length.mpr hs
    have hname : d.model_.names[d.model_.names.indexOf s]? = some s := by
      rw [List.getElem?_eq_getElem hidx]
      simp
    refine ⟨⟨?_, fun h => absurd hs h⟩, ?_, fun _ => hcall, ?_, ?_⟩
    · rintro ⟨msg, hmsg⟩
      rw [hcall] at hmsg
      exact absurd hmsg (Joint.new_error_not_runtime d _ msg)
    · intro msg hmsg
      rw [hcall] at hmsg
      exact absurd hmsg (Joint.new_error_not_runtime d _ msg)
    · intro j hj
      rw [hcall] at hj
      have hid := (Joint.new_id d _ j hj).1
      rw [hid]
      refine ⟨rfl, hname, ?_⟩
      unfold Joint.name
      rw [hid]
      exact (readAt_eq_ok _ _ _).mpr hname
    · intro data hco _
      have hlt : ((d.model_.names.indexOf s : Nat) : Int) < d.model_.njoint := by
        have := hco.names_length
        omega
      refine ⟨_, hcall.trans (Joint.new_ok d data hco _ hlt), rfl, rfl, ?_⟩
      unfold Joint.name
      exact (readAt_eq_ok _ _ _).mpr hname
  · have hex : d.model_.existJointName s = false := by
      cases h : d.model_.existJointName s
      · rfl
      · exact absurd ((existJointName_iff _ _).mp h) hs
    have hcall : d.getJointByName s = .error (.runtimeError
        ("Device " ++ d.name_ ++ " does not have any joint named " ++ s)) := by
      unfold Device.getJointByName
      simp [hex]
    refine ⟨⟨fun _ => hs, fun _ => ⟨_, hcall⟩⟩, ?_, fun h => absurd h hs, ?_,
      fun _ _ h => absurd h hs⟩
    · intro msg hmsg
      rw [hcall] at hmsg
      simp only [Except.error.injEq, Failure.runtimeError.injEq] at hmsg
      subst hmsg
      refine ⟨⟨"Device ", " does not have any joint named " ++ s, ?_⟩,
        ⟨"Device " ++ d.name_ ++ " does not have any joint named ", "", ?_⟩⟩
      · simp [String.append_assoc]
      · simp
    · intro j hj
      rw [hcall] at hj
      simp at hj

/-- Claim C6 at work on the arm: `wrist` is not a joint and the lookup raises
the recoverable error, whose text holds `arm` and `wrist`; `elbow` is in the
table at index 2 and the lookup returns that joint; on the branching tree the
lookup of `hip` returns the joint of index 1 with its two children. -/
theorem getJointByName_contract_witness :
    ("wrist" ∉ arm.model_.names ∧
      arm.getJointByName "wrist"
        = .error (.runtimeError "Device arm does not have any joint named wrist") ∧
      ∃ msg, arm.getJointByName "wrist" = .error (.runtimeError msg)) ∧
    (arm.EngineCoherent armData ∧ "elbow" ∈ arm.model_.names ∧
      arm.model_.names.indexOf "elbow" = 2 ∧
      arm.getJointByName "elbow" = .ok ⟨2, []⟩ ∧
      arm.getJointByName "elbow" = Joint.new arm (arm.model_.names.indexOf "elbow") ∧
      (∃ j, arm.getJointByName "elbow" = .ok j ∧ j.id = arm.model_.names.indexOf "elbow" ∧
        j.children = Spec.childList arm.model_.parents armData.lastChild j.id ∧
        Joint.name arm j = .ok "elbow") ∧
      ((⟨2, []⟩ : Joint).id = arm.model_.names.indexOf "elbow" ∧
        arm.model_.names[(⟨2, []⟩ : Joint).id]? = some "elbow" ∧
        Joint.name arm ⟨2, []⟩ = .ok "elbow")) ∧
    (tree.getJointByName "hip" = .ok ⟨1, [2, 4]⟩ ∧
      ∃ j, tree.getJointByName "hip" = .ok j ∧ j.id = tree.model_.names.indexOf "hip" ∧
        j.children = Spec.childList tree.model_.parents treeData.lastChild j.id ∧
        Joint.name tree j = .ok "hip") :=
  ⟨⟨by decide, rfl, (getJointByName_contract arm "wrist").1.mpr (by decide)⟩,
    ⟨arm_treeWellFormed.coherent, by decide, by decide, rfl,
      (getJointByName_contract arm "elbow").2.2.1 (by decide),
      (getJointByName_contract arm "elbow").2.2.2.2 armData arm_treeWellFormed.coherent
        (by decide),
      (getJointByName_contract arm "elbow").2.2.2.1 ⟨2, []⟩ rfl⟩,
    ⟨rfl, (getJointByName_contract tree "hip").2.2.2.2 treeData tree_treeWellFormed.coherent
      (by decide)⟩⟩

/-- Claim C6 as stated fails on the arm before `createData`: `elbow` is in the
name table, and the lookup neither raises the recoverable error nor returns a
handle; it ends in the assertion `assert (data ())` of the `Joint` constructor. -/
theorem getJointByName_without_data :
    "elbow" ∈ armNoData.model_.names ∧
    armNoData.getJointByName "elbow" = .error (.contractViolation "data()") ∧
    ¬ ∃ j, armNoData.getJointByName "elbow" = .ok j := by
  refine ⟨by decide, rfl, ?_⟩
  rintro ⟨j, hj⟩
  have h : armNoData.getJointByName "elbow" = .error (.contractViolation "data()") := rfl
  rw [h] at hj
  cases hj

/-! ## The joint vector -/

/-- Claim C7, on every device: `JointVector::size ()` is `njoint`, the universe
counted, and so never `njoint - 1`. -/
theorem JointVector_size_counts_universe (d : Device) :
    JointVector.size d = d.model_.njoint ∧ JointVector.size d ≠ d.model_.njoint - 1 := by
  unfold JointVector.size
  exact ⟨rfl, by omega⟩

/-- The bounds check of the joint vector passes exactly on `[0, size () - 1)`. -/
theorem JointVector_selfAssert_iff (d : Device) (i : Int) :
    JointVector.selfAssert d i = .ok () ↔ 0 ≤ i ∧ i < JointVector.size d - 1 := by
  unfold JointVector.selfAssert assert JointVector.ibegin JointVector.iend
  by_cases h0 : 0 ≤ i <;> by_cases h1 : i < JointVector.size d - 1 <;> simp [h0, h1]

/-- Claim C8, evaluated on the arm, of size 3: logical index `size () - 1` fails
the bounds check; the last engine joint, index 2, is reached from logical index
`size () - 2`; logical index 0 gives engine index 1. -/
theorem JointVector_at_rejects_last_index :
    JointVector.size arm = 3 ∧
    JointVector.at arm (JointVector.size arm - 1) = .error (.contractViolation "i<iend()") ∧
    JointVector.at arm (JointVector.size arm - 2) = .ok ⟨2, []⟩ ∧
    JointVector.at arm 0 = .ok ⟨1, [2]⟩ :=
  ⟨rfl, rfl, rfl, rfl⟩

/-! ## The universe joint -/

/-- The root joint, the lookups by rank, the joint vector and the children of a
constructed joint only give handles of index at least 1. -/
theorem universe_hidden_by_rank_and_index (d : Device) (j : Joint) :
    (d.rootJoint = .ok j → j.id = 1) ∧
    (∀ r, d.getJointAtConfigRank r = .ok j → 1 ≤ j.id) ∧
    (∀ r, d.getJointAtVelocityRank r = .ok j → 1 ≤ j.id) ∧
    (∀ i, JointVector.at d i = .ok j → 1 ≤ j.id) ∧
    (∀ i p rank, Joint.new d i = .ok p → p.childJoint d rank = .ok j → 1 ≤ j.id) := by
  refine ⟨?_, ?_, ?_, ?_, ?_⟩
  · intro h
    exact (Joint.new_id d 1 j h).1
  · intro r h
    obtain ⟨jm, _, hid, hne, _⟩ := getJointAtConfigRank_returns d r j h
    omega
  · intro r h
    obtain ⟨jm, _, hid, hne, _⟩ := getJointAtVelocityRank_returns d r j h
    omega
  · intro i h
    unfold JointVector.at at h
    split at h
    · simp at h
    · rename_i hs
      have hrange := (JointVector_selfAssert_iff d i).mp hs
      have := (Joint.new_id d _ j h).1
      omega
  · intro i p rank hp h
    unfold Joint.childJoint at h
    split at h
    · simp at h
    · rename_i child hchild
      have hmem : child ∈ p.children := List.getElem?_mem hchild
      have hlt := (Joint.new_id d i p hp).2 child hmem
      have := (Joint.new_id d child j h).1
      omega

/-- Claim C9, evaluated on the arm: the name table holds the universe's name at
index 0 and the lookup by that name returns the handle of index 0; the BODY
frame `base` has parent joint 0 and the lookup by that body name returns the
handle of index 0. -/
theorem universe_exposed_by_name :
    arm.model_.names[0]? = some "universe" ∧
    arm.getJointByName "universe" = .ok ⟨0, [1]⟩ ∧
    arm.model_.frames[0]? = some ⟨"base", 0, .BODY⟩ ∧
    arm.getJointByBodyName "base" = .ok ⟨0, [1]⟩ :=
  ⟨rfl, rfl, rfl, rfl⟩

/-! ## Children of a joint -/

/-- Claim C10: in a well-formed engine tree, the joint constructed at a valid
index `id` has as child list exactly the increasing list of the indices `c` with
`id < c <= lastChild[id]` and `parents[c] == id`, which are all the joints whose
recorded parent is `id`; `numberChildJoints ()` is its length; `childJoint (rank)`
returns, when `rank` is below that length, the handle the constructor builds at
the entry of that rank, whose parent is `id` and which carries its own child
list, and is a contract violation otherwise. -/
theorem childList_contract (d : Device) (data : Data) (hwf : d.TreeWellFormed data) (id : Nat)
    (hid : (id : Int) < d.model_.njoint) :
    ∃ j, Joint.new d id = .ok j ∧ j.id = id ∧
      j.children = Spec.childList d.model_.parents data.lastChild id ∧
      j.children.Sorted (· < ·) ∧
      (∀ c, c ∈ j.children ↔
        id < c ∧ (c : Int) ≤ data.lastChild.getD id 0 ∧ d.model_.parents[c]? = some id) ∧
      (∀ c, c ∈ j.children ↔
        0 < c ∧ (c : Int) < d.model_.njoint ∧ d.model_.parents[c]? = some id) ∧
      j.numberChildJoints = j.children.length ∧
      (∀ rank, rank < j.numberChildJoints →
        ∃ cj, j.childJoint d rank = .ok cj ∧ j.children[rank]? = some cj.id ∧
          d.model_.parents[cj.id]? = some id ∧
          j.childJoint d rank = Joint.new d cj.id ∧
          cj.children = Spec.childList d.model_.parents data.lastChild cj.id ∧
          (∀ g, g ∈ cj.children ↔
            0 < g ∧ (g : Int) < d.model_.njoint ∧ d.model_.parents[g]? = some cj.id)) ∧
      (∀ rank, j.numberChildJoints ≤ rank →
        j.childJoint d rank = .error (.contractViolation "rank<children.size()")) := by
  have hco := hwf.coherent
  have hlen := hco.lastChild_length
  have hplen := hco.parents_length
  have hall : ∀ i : Nat, (i : Int) < d.model_.njoint → ∀ c,
      c ∈ Spec.childList d.model_.parents data.lastChild i ↔
        0 < c ∧ (c : Int) < d.model_.njoint ∧ d.model_.parents[c]? = some i := by
    intro i hi c
    have hilt : i < data.lastChild.length := by omega
    have hlast : data.lastChild.getD i 0 < d.model_.njoint := by
      have hmem : data.lastChild[i] ∈ data.lastChild := List.getElem_mem hilt
      have := hco.lastChild_lt _ hmem
      simpa [List.getD_eq_getElem?_getD, List.getElem?_eq_getElem hilt] using this
    rw [Spec.mem_childList]
    constructor
    · rintro ⟨h1, h2, h3⟩
      exact ⟨by omega, by omega, h3⟩
    · rintro ⟨h1, h2, h3⟩
      have hclt : c < d.model_.parents.length := by omega
      have hpar := hwf.parent_lt c hclt h1
      have hget : d.model_.parents.getD c 0 = i := by
        simp [List.getD_eq_getElem?_getD, h3]
      rw [hget] at hpar
      exact ⟨hpar, hwf.lastChild_largest i hilt c hclt
        (Spec.inSubtree_of_parent _ _ _ h1 h3), h3⟩
  have hmem := Spec.mem_childList d.model_.parents data.lastChild id
  refine ⟨_, Joint.new_ok d data hco id hid, rfl, rfl, Spec.childList_sorted _ _ _, hmem,
    hall id hid, rfl, ?_, ?_⟩
  · intro rank hrank
    simp only [Joint.numberChildJoints] at hrank
    have hget : (Spec.childList d.model_.parents data.lastChild id)[rank]? =
        some (Spec.childList d.model_.parents data.lastChild id)[rank] :=
      List.getElem?_eq_getElem hrank
    have hin : (Spec.childList d.model_.parents data.lastChild id)[rank] ∈
        Spec.childList d.model_.parents data.lastChild id := List.getElem_mem hrank
    obtain ⟨h1, h2, h3⟩ := (hall id hid _).mp hin
    have hcall : Joint.childJoint d
        ⟨id, Spec.childList d.model_.parents data.lastChild id⟩ rank =
        Joint.new d (Spec.childList d.model_.parents data.lastChild id)[rank] := by
      unfold Joint.childJoint
      simp only [hget]
    have hnew := Joint.new_ok d data hco
      (Spec.childList d.model_.parents data.lastChild id)[rank] h2
    exact ⟨⟨(Spec.childList d.model_.parents data.lastChild id)[rank],
      Spec.childList d.model_.parents data.lastChild
        (Spec.childList d.model_.parents data.lastChild id)[rank]⟩,
      hcall.trans hnew, hget, h3, hcall, rfl, hall _ h2⟩
  · intro rank hrank
    simp only [Joint.numberChildJoints] at hrank
    unfold Joint.childJoint
    simp only [List.getElem?_eq_none hrank]

/-- Claim C10 at work on the branching tree, a well-formed tree, at `hip`
(index 1): its child list is `[2, 4]`, it has two children, `childJoint (0)` is
`knee` with its own child `ankle`, `childJoint (1)` is the leaf `tail`, and
`childJoint (2)` is a contract violation. -/
theorem childList_contract_witness :
    tree.TreeWellFormed treeData ∧ ((1 : Nat) : Int) < tree.model_.njoint ∧
    Joint.new tree 1 = .ok ⟨1, [2, 4]⟩ ∧
    Joint.numberChildJoints ⟨1, [2, 4]⟩ = 2 ∧
    Joint.childJoint tree ⟨1, [2, 4]⟩ 0 = .ok ⟨2, [3]⟩ ∧
    Joint.childJoint tree ⟨1, [2, 4]⟩ 1 = .ok ⟨4, []⟩ ∧
    Joint.childJoint tree ⟨1, [2, 4]⟩ 2 = .error (.contractViolation "rank<children.size()") ∧
    ∃ j, Joint.new tree 1 = .ok j ∧ j.id = 1 ∧
      j.children = Spec.childList tree.model_.parents treeData.lastChild 1 ∧
      j.children.Sorted (· < ·) ∧
      (∀ c, c ∈ j.children ↔
        1 < c ∧ (c : Int) ≤ treeData.lastChild.getD 1 0 ∧ tree.model_.parents[c]? = some 1) ∧
      (∀ c, c ∈ j.children ↔
        0 < c ∧ (c : Int) < tree.model_.njoint ∧ tree.model_.parents[c]? = some 1) ∧
      j.numberChildJoints = j.children.length ∧
      (∀ rank, rank < j.numberChildJoints →
        ∃ cj, j.childJoint tree rank = .ok cj ∧ j.children[rank]? = some cj.id ∧
          tree.model_.parents[cj.id]? = some 1 ∧
          j.childJoint tree rank = Joint.new tree cj.id ∧
          cj.children = Spec.childList tree.model_.parents treeData.lastChild cj.id ∧
          (∀ g, g ∈ cj.children ↔
            0 < g ∧ (g : Int) < tree.model_.njoint ∧ tree.model_.parents[g]? = some cj.id)) ∧
      (∀ rank, j.numberChildJoints ≤ rank →
        j.childJoint tree rank = .error (.contractViolation "rank<children.size()")) :=
  ⟨tree_treeWellFormed, by decide, rfl, rfl, rfl, rfl, rfl,
    childList_contract tree treeData tree_treeWellFormed 1 (by decide)⟩

end hpp.pinocchio
